import Mathlib

/-!
Verification of the mcp-rss-aggregator specification against a shallow
embedding of src/index.ts.

External collaborators (the WHATWG URL parser, the rss-parser network
transport, Date parsing, the file system and the remote formatter) are
modelled as explicit function parameters; everything else is translated
from the TypeScript source.
-/

namespace RSSAgg

/-! ## JavaScript string primitives -/

/-- Tests whether the pattern list is an initial segment of the string list
(JS String.startsWith on char lists). -/
def startsWithL : List Char → List Char → Bool
  | [], _ => true
  | _ :: _, [] => false
  | p :: ps, c :: cs => p = c && startsWithL ps cs

/-- JS String.includes: the second list occurs contiguously inside the first. -/
def containsSub : List Char → List Char → Bool
  | hay, pat =>
    if startsWithL pat hay then true
    else
      match hay with
      | [] => false
      | _ :: t => containsSub t pat

/-- JS String.replace with a plain-string pattern and empty replacement:
removes the FIRST occurrence of the pattern only. -/
def removeFirst (pat : List Char) : List Char → List Char
  | [] => []
  | c :: cs =>
    if startsWithL pat (c :: cs) then (c :: cs).drop pat.length
    else c :: removeFirst pat cs

/-- JS url.replace with a global regex matching http:// or https://, empty
replacement: one left-to-right scan removing every occurrence, never
rescanning text produced by an earlier removal. -/
def stripSchemes : List Char → List Char
  | [] => []
  | c :: cs =>
    if startsWithL "https://".toList (c :: cs) then stripSchemes ((c :: cs).drop 8)
    else if startsWithL "http://".toList (c :: cs) then stripSchemes ((c :: cs).drop 7)
    else c :: stripSchemes cs
  termination_by l => l.length
  decreasing_by
    all_goals simp [List.length_drop]
    all_goals omega

/-- ASCII alphanumeric test, the character class of the regex [^a-zA-Z0-9]
complemented. -/
def isAlnum (c : Char) : Bool :=
  (('A' ≤ c && c ≤ 'Z') || ('a' ≤ c && c ≤ 'z') || ('0' ≤ c && c ≤ '9'))

/-- JS String.toLowerCase restricted to the ASCII range. -/
def lowerStr (s : String) : String :=
  ⟨s.data.map Char.toLower⟩

/-- JS truthiness of an optional string: undefined and the empty string are
falsy. -/
def truthyS : Option String → Bool
  | none => false
  | some s => s ≠ ""

/-- JS a || b where a is an optional string and b a string. -/
def jsOrS (a : Option String) (b : String) : String :=
  match a with
  | some s => if s = "" then b else s
  | none => b

/-- JS a || b where both sides are optional strings. -/
def jsOrO (a b : Option String) : Option String :=
  match a with
  | some s => if s = "" then b else some s
  | none => b

/-- The JS default sort comparison on strings: lexicographic on code
units. -/
def charListLe : List Char → List Char → Bool
  | [], _ => true
  | _ :: _, [] => false
  | a :: as, b :: bs => if a < b then true else if b < a then false else charListLe as bs

/-- The JS default sort order on strings, as a decidable relation. -/
def strLe (a b : String) : Prop := charListLe a.data b.data = true

instance : DecidableRel strLe := fun a b =>
  inferInstanceAs (Decidable (charListLe a.data b.data = true))

/-- JS hay.includes(pat) on Lean strings. -/
def containsStr (hay pat : String) : Bool :=
  containsSub hay.toList pat.toList

/-- JS s.split of one space, first element: the longest space-free initial
segment. -/
def firstToken (s : String) : String :=
  ⟨s.toList.takeWhile (fun c => c ≠ ' ')⟩

/-! ## Identifier derivation (createFeedId, src/index.ts lines 198-211)

The WHATWG URL parser is external: it is modelled as a parameter
ph : String → Option String returning the hostname of a parseable URL and
none when the URL constructor throws. -/

/-- Embeds createFeedId: on a parseable URL, take the hostname, remove the
first occurrence of the string "www." and turn each "." into "-"; otherwise
remove every occurrence of http:// or https://, turn every non-alphanumeric
character into "-" and lowercase. -/
def createFeedId (ph : String → Option String) (url : String) : String :=
  match ph url with
  | some host =>
      ⟨(removeFirst "www.".toList host.toList).map (fun c => if c = '.' then '-' else c)⟩
  | none =>
      ⟨((stripSchemes url.toList).map (fun c => if isAlnum c then c else '-')).map Char.toLower⟩

/-- The identifier derivation exactly as the specification claim words it:
strip a LEADING www. label from the hostname; in the fallback strip only a
LEADING http:// or https:// scheme. -/
def createFeedIdClaim (ph : String → Option String) (url : String) : String :=
  match ph url with
  | some host =>
      let h := host.toList
      let h := if startsWithL "www.".toList h then h.drop 4 else h
      ⟨h.map (fun c => if c = '.' then '-' else c)⟩
  | none =>
      let u := url.toList
      let u :=
        if startsWithL "https://".toList u then u.drop 8
        else if startsWithL "http://".toList u then u.drop 7
        else u
      ⟨(u.map (fun c => if isAlnum c then c else '-')).map Char.toLower⟩

/-- The least index whose suffix satisfies a predicate, if any. -/
def firstIdxWhere (p : List Char → Bool) (l : List Char) : Option Nat :=
  (List.range l.length).find? (fun i => p (l.drop i))

/-- Removal of the first occurrence of a pattern, specified through the
least index at which the pattern occurs. -/
def removeFirstAtSpec (pat l : List Char) : List Char :=
  match firstIdxWhere (fun s => startsWithL pat s) l with
  | some i => l.take i ++ l.drop (i + pat.length)
  | none => l

/-- The identifier derivation as amended: the first occurrence of "www."
anywhere in the hostname is removed (not only a leading label), and the
fallback removes every occurrence of a scheme substring anywhere in the
input (single left-to-right scan), then maps non-alphanumerics to "-" and
lowercases. -/
def createFeedIdAmended (ph : String → Option String) (url : String) : String :=
  match ph url with
  | some host =>
      ⟨(removeFirstAtSpec "www.".toList host.toList).map (fun c => if c = '.' then '-' else c)⟩
  | none =>
      ⟨((stripSchemes url.toList).map (fun c => if isAlnum c then c else '-')).map Char.toLower⟩

/-! ## Data model -/

/-- The Feed interface of src/index.ts (lines 22-27). -/
structure Feed where
  title : String
  url : String
  htmlUrl : Option String
  category : Option String
deriving DecidableEq, Repr

/-- The in-memory registry: the Map of feed identifier to feed, in
insertion order. -/
abbrev Registry := List (String × Feed)

/-- JS Map.prototype.set: replaces the value of an existing key in place,
otherwise appends the binding. -/
def insertFeed (reg : Registry) (k : String) (f : Feed) : Registry :=
  if reg.any (fun kv => kv.1 = k) then
    reg.map (fun kv => if kv.1 = k then (k, f) else kv)
  else
    reg ++ [(k, f)]

/-- JS Map.prototype.get. -/
def lookupReg (reg : Registry) (k : String) : Option Feed :=
  (List.find? (fun kv => kv.1 = k) reg).map (fun kv => kv.2)

/-- Well-formedness of a Map state: keys are pairwise distinct. -/
def RegWF (reg : Registry) : Prop :=
  (reg.map (fun kv => kv.1)).Nodup

instance (reg : Registry) : Decidable (RegWF reg) :=
  show Decidable ((reg.map (fun kv => kv.1)).Nodup) from inferInstance

/-- Every stored key is the derived identifier of the stored feed's URL. -/
def KeysDerived (ph : String → Option String) (reg : Registry) : Prop :=
  ∀ kv ∈ reg, kv.1 = createFeedId ph kv.2.url

/-! ## Format loaders -/

/-- Embeds parseJSONFeeds (lines 157-176). JSON.parse is external, so its
outcome is the argument: none when JSON.parse throws, some entries when the
whole source text parsed. The entries are folded into the EXISTING map in
order (the source never clears this.feeds here). -/
def parseJSONFeeds (ph : String → Option String) (parsed : Option (List Feed))
    (reg : Registry) : Except String Registry :=
  match parsed with
  | none => Except.error "Error parsing JSON feeds"
  | some fs =>
      Except.ok (fs.foldl
        (fun r f =>
          insertFeed r (createFeedId ph f.url)
            { title := f.title, url := f.url, htmlUrl := f.htmlUrl, category := f.category })
        reg)

/-- A node of the parsed OPML outline tree: the fast-xml-parser attributes
the source reads, plus nested outlines. The outline.outline property is
absent exactly when children is empty. -/
inductive OutlineNode where
  | mk (title text xmlUrl htmlUrl : Option String) (children : List OutlineNode)

def OutlineNode.title : OutlineNode → Option String
  | .mk t _ _ _ _ => t

def OutlineNode.text : OutlineNode → Option String
  | .mk _ t _ _ _ => t

def OutlineNode.xmlUrl : OutlineNode → Option String
  | .mk _ _ u _ _ => u

def OutlineNode.htmlUrl : OutlineNode → Option String
  | .mk _ _ _ u _ => u

def OutlineNode.children : OutlineNode → List OutlineNode
  | .mk _ _ _ _ cs => cs

mutual

/-- Embeds the inner processOutline closure of parseOPMLFeeds (lines
127-146) on a single node: a node with a truthy xmlUrl is a leaf and is
inserted with the inherited category; otherwise, if it has nested outlines
it is a folder whose truthy title or text label replaces the inherited
category for its subtree; otherwise it is skipped. -/
def processOutline (ph : String → Option String) (o : OutlineNode) (category : String)
    (reg : Registry) : Registry :=
  match o with
  | .mk title text xmlUrl htmlUrl children =>
    if truthyS xmlUrl then
      let url := xmlUrl.getD ""
      insertFeed reg (createFeedId ph url)
        { title := jsOrS title (jsOrS text "Unnamed Feed")
          url := url
          htmlUrl := htmlUrl
          category := some category }
    else if !children.isEmpty then
      processOutlineList ph children (jsOrS title (jsOrS text category)) reg
    else
      reg

/-- processOutline on an array of outlines, left to right. -/
def processOutlineList (ph : String → Option String) (os : List OutlineNode)
    (category : String) (reg : Registry) : Registry :=
  match os with
  | [] => reg
  | o :: rest => processOutlineList ph rest category (processOutline ph o category reg)

end

/-- Embeds parseOPMLFeeds (lines 119-155). The XML parser is external: the
argument is none when parsing throws or the result lacks opml.body.outline,
and some root outlines otherwise (a single root outline is the singleton
list). On success the tree is folded into the EXISTING map. -/
def parseOPMLFeeds (ph : String → Option String) (doc : Option (List OutlineNode))
    (reg : Registry) : Except String Registry :=
  match doc with
  | none => Except.error "Invalid OPML format"
  | some outlines => Except.ok (processOutlineList ph outlines "" reg)

/-- A registry source file as loadFeedsFromFile observes it: read failure,
or a payload tagged by the lowercased file extension. -/
inductive SourceFile where
  | unreadable
  | opml (doc : Option (List OutlineNode))
  | json (parsed : Option (List Feed))
  | other (ext : String)

/-- Embeds loadFeedsFromFile (lines 101-117): read the file, dispatch on
the extension, rethrow any failure. -/
def loadFeedsFromFile (ph : String → Option String) (src : SourceFile)
    (reg : Registry) : Except String Registry :=
  match src with
  | .unreadable => Except.error "read failure"
  | .opml doc => parseOPMLFeeds ph doc reg
  | .json parsed => parseJSONFeeds ph parsed reg
  | .other ext => Except.error ("Unsupported file format: " ++ ext)

/-- Embeds setFeedsPath (lines 273-280): fail when the path does not exist,
otherwise load from the file. -/
def setFeedsPath (ph : String → Option String) (pathExists : Bool) (p : String)
    (src : SourceFile) (reg : Registry) : Except String Registry :=
  if pathExists then loadFeedsFromFile ph src reg
  else Except.error ("File not found: " ++ p)

/-- The registry state after a load attempt: the thrown error leaves the
previous map in place, since every mutation path either completed or never
ran. -/
def applyLoad (reg : Registry) (res : Except String Registry) : Registry :=
  match res with
  | Except.ok r => r
  | Except.error _ => reg

/-- Embeds addDefaultFeeds (lines 178-196): this.feeds.clear() followed by
two hardcoded insertions, so the resulting state is this two-entry map. -/
def defaultFeeds : Registry :=
  [("hackernews",
    { title := "Hacker News", url := "https://news.ycombinator.com/rss",
      htmlUrl := some "https://news.ycombinator.com/", category := some "Tech News" }),
   ("techcrunch",
    { title := "TechCrunch", url := "https://techcrunch.com/feed/",
      htmlUrl := some "https://techcrunch.com/", category := some "Tech News" })]

/-! ## Fetch pipeline (getFeedItems, getAllFeedItems)

The rss-parser transport is external: it is modelled as a parameter
fetchCap : String → Option ParsedFeed from feed URL to parse result, none
meaning parser.parseURL rejected. Date parsing is external too and is
modelled as a parameter time : String → Int giving the numeric time value
of a date string. The current clock (new Date().toISOString()) is the
parameter now. -/

/-- An item as returned by rss-parser. -/
structure RawItem where
  title : Option String
  link : Option String
  pubDate : Option String
  content : Option String
  contentSnippet : Option String
  creator : Option String
  categories : Option (List String)
  isoDate : Option String
deriving DecidableEq, Repr

/-- A feed as returned by rss-parser: its own title and its items. -/
structure ParsedFeed where
  title : Option String
  items : List RawItem
deriving DecidableEq, Repr

/-- The FeedItem interface of src/index.ts (lines 29-40). -/
structure FeedItem where
  title : String
  link : String
  pubDate : String
  content : Option String
  contentSnippet : Option String
  creator : Option String
  categories : Option (List String)
  isoDate : Option String
  source : String
  sourceUrl : String
deriving DecidableEq, Repr

/-- The item mapping inside getFeedItems (lines 222-233). -/
def convertItem (feed : Feed) (pf : ParsedFeed) (now : String) (it : RawItem) : FeedItem :=
  { title := jsOrS it.title "No title"
    link := jsOrS it.link ""
    pubDate := jsOrS it.pubDate (jsOrS it.isoDate now)
    content := it.content
    contentSnippet := it.contentSnippet
    creator := jsOrO it.creator pf.title
    categories := it.categories
    isoDate := it.isoDate
    source := feed.title
    sourceUrl := jsOrS feed.htmlUrl feed.url }

/-- Embeds getFeedItems (lines 213-238): look the identifier up, fetch and
parse the feed URL, keep the first limit items, convert each. -/
def getFeedItems (fetchCap : String → Option ParsedFeed) (now : String)
    (reg : Registry) (feedId : String) (limit : Nat) : Except String (List FeedItem) :=
  match lookupReg reg feedId with
  | none => Except.error ("Feed not found: " ++ feedId)
  | some feed =>
      match fetchCap feed.url with
      | none => Except.error ("Error fetching feed " ++ feedId)
      | some pf => Except.ok ((pf.items.take limit).map (convertItem feed pf now))

/-- The candidate test of getAllFeedItems (lines 245-248): with a falsy
filter every feed passes; otherwise the feed's truthy category must equal
or contain the filter case-insensitively, or its truthy title must contain
the filter case-insensitively. -/
def isCandidate (filter : Option String) (f : Feed) : Bool :=
  match filter with
  | none => true
  | some cat =>
      if cat = "" then true
      else
        (truthyS f.category && lowerStr (f.category.getD "") = lowerStr cat) ||
        (truthyS f.category && containsStr (lowerStr (f.category.getD "")) (lowerStr cat)) ||
        (f.title ≠ "" && containsStr (lowerStr f.title) (lowerStr cat))

/-- The per-feed budget Math.ceil(limit / this.feeds.size) of line 242,
for a nonempty registry. -/
def itemsPerFeed (limit n : Nat) : Nat :=
  (limit + n - 1) / n

/-- The candidate feeds selected by the forEach of lines 244-251, in
registry iteration order. -/
def candidatesOf (reg : Registry) (filter : Option String) : List (String × Feed) :=
  reg.filter (fun kv => isCandidate filter kv.2)

/-- The merged pool of successfully fetched items (lines 253-258):
fulfilled results only, concatenated in candidate order. -/
def poolOf (fetchCap : String → Option ParsedFeed) (now : String) (reg : Registry)
    (filter : Option String) (limit : Nat) : List FeedItem :=
  ((candidatesOf reg filter).filterMap
    (fun kv => (getFeedItems fetchCap now reg kv.1 (itemsPerFeed limit reg.length)).toOption)).flatten

/-- The effective date string used by the sort comparator of lines 260-264:
a.isoDate || a.pubDate. -/
def effDate (it : FeedItem) : String :=
  jsOrS it.isoDate it.pubDate

/-- Descending-time order on items: b dates no later than a. -/
def laterEq (time : String → Int) (a b : FeedItem) : Prop :=
  time (effDate b) ≤ time (effDate a)

instance (time : String → Int) : DecidableRel (laterEq time) := fun a b =>
  inferInstanceAs (Decidable (time (effDate b) ≤ time (effDate a)))

instance (time : String → Int) : IsTotal FeedItem (laterEq time) :=
  ⟨fun a b => le_total (time (effDate b)) (time (effDate a))⟩

instance (time : String → Int) : IsTrans FeedItem (laterEq time) :=
  ⟨fun _ _ _ hab hbc => le_trans hbc hab⟩

/-- The stable descending-time sort of line 260. -/
def sortItems (time : String → Int) (l : List FeedItem) : List FeedItem :=
  List.insertionSort (laterEq time) l

/-- Embeds getAllFeedItems (lines 240-271): select candidates, fetch each
with the ceil(limit / total size) budget, keep the fulfilled results, sort
all items descending by effective date, truncate to the limit. -/
def getAllFeedItems (fetchCap : String → Option ParsedFeed) (now : String)
    (time : String → Int) (reg : Registry) (filter : Option String)
    (limit : Nat) : List FeedItem :=
  (sortItems time (poolOf fetchCap now reg filter limit)).take limit

/-! ## Categories and the keyword resolver -/

/-- Embeds getCategories (lines 309-319): the distinct truthy category
labels, sorted (JS default string sort). -/
def getCategories (reg : Registry) : List String :=
  List.insertionSort strLe
    ((reg.filterMap (fun kv => if truthyS kv.2.category then kv.2.category else none)).dedup)

/-- The fixed synonym table of lines 333-340, in source order. -/
def keywordMap : List (String × List String) :=
  [("tech", ["tech", "technology", "programming", "software", "developer", "ai"]),
   ("news", ["news", "headlines", "current"]),
   ("business", ["business", "finance", "economy", "market"]),
   ("health", ["health", "medical", "wellness", "fitness"]),
   ("science", ["science", "research", "study", "discovery"]),
   ("sports", ["sports", "game", "team", "player"])]

/-- The synonym layer of getCategoryByKeyword (lines 342-349): for each
canonical topic in table order, if the lowercased keyword contains one of
its terms, return the first category containing (or equal to) the topic
name; fall through to the next topic when no category matches. -/
def findSynonymCat (cats : List String) (lk : String) :
    List (String × List String) → Option String
  | [] => none
  | (topic, terms) :: rest =>
    if terms.any (fun t => containsStr lk t) then
      match cats.find? (fun c => containsStr (lowerStr c) topic || lowerStr c = topic) with
      | some c => some c
      | none => findSynonymCat cats lk rest
    else findSynonymCat cats lk rest

/-- Embeds getCategoryByKeyword (lines 321-352): exact match, then the
partial layer (category contains keyword, or keyword contains the
category's own first space-delimited token), then the synonym table. -/
def getCategoryByKeyword (reg : Registry) (keyword : String) : Option String :=
  let cats := getCategories reg
  let lk := lowerStr keyword
  match cats.find? (fun c => lowerStr c = lk) with
  | some c => some c
  | none =>
    match cats.find? (fun c =>
        containsStr (lowerStr c) lk || containsStr lk (firstToken (lowerStr c))) with
    | some c => some c
    | none => findSynonymCat cats lk keywordMap

/-- The partial layer as the claim words it: keyword is a substring of the
category, or the KEYWORD's own first token is a substring of the category. -/
def getCategoryByKeywordClaim (reg : Registry) (keyword : String) : Option String :=
  let cats := getCategories reg
  let lk := lowerStr keyword
  match cats.find? (fun c => lowerStr c = lk) with
  | some c => some c
  | none =>
    match cats.find? (fun c =>
        containsStr (lowerStr c) lk || containsStr (lowerStr c) (firstToken lk)) with
    | some c => some c
    | none => findSynonymCat cats lk keywordMap

/-! ## Command interpreter limit extraction -/

/-- The condition that a suffix of the input begins a match of the regex
seq dash, dash, digits. -/
def dashNumHere (s : List Char) : Bool :=
  startsWithL "--".toList s && (((s.drop 2).head?.map Char.isDigit).getD false)

/-- Leftmost match of the regex seq dash, dash, capture of digits: scan
left to right for the first position where "--" is followed by at least
one digit and return that maximal digit run. -/
def findDashNum : List Char → Option (List Char)
  | [] => none
  | c :: cs =>
    if dashNumHere (c :: cs) then some (((c :: cs).drop 2).takeWhile Char.isDigit)
    else findDashNum cs

/-- Digits to a natural number, most significant first. -/
def digitsToNat (ds : List Char) : Nat :=
  ds.foldl (fun acc c => 10 * acc + (c.toNat - '0'.toNat)) 0

/-- Embeds the limit extraction of the rss tool handler (lines 420-427):
default 10; when param starts with "--" and contains "--" followed by
digits somewhere, the first such digit run is parsed and clamped to
[1, 50]. -/
def extractLimit (param : String) : Nat :=
  if startsWithL "--".toList param.toList then
    match findDashNum param.toList with
    | some ds => min (max (digitsToNat ds) 1) 50
    | none => 10
  else 10

/-- The leftmost regex match, specified through the least index at which a
match begins. -/
def dashNumAtSpec (l : List Char) : Option (List Char) :=
  match firstIdxWhere dashNumHere l with
  | some i => some ((l.drop (i + 2)).takeWhile Char.isDigit)
  | none => none

/-- The limit extraction as amended: default 10; when param starts with
"--", the digits of the LEFTMOST occurrence of "--" followed by a digit
anywhere in param (not necessarily the whole of param) are parsed and
clamped to [1, 50]. -/
def extractLimitAmended (param : String) : Nat :=
  if startsWithL "--".toList param.toList then
    match dashNumAtSpec param.toList with
    | some ds => min (max (digitsToNat ds) 1) 50
    | none => 10
  else 10

/-- The limit extraction as the claim words it: the clamp applies exactly
when the whole param is "--" followed by digits. -/
def extractLimitClaim (param : String) : Nat :=
  match param.toList with
  | '-' :: '-' :: d :: rest =>
    if d.isDigit && (d :: rest).all Char.isDigit then
      min (max (digitsToNat (d :: rest)) 1) 50
    else 10
  | _ => 10

/-! ## Feed listing (getFeedsList, lines 282-307)

String.prototype.localeCompare is locale-dependent and external; the title
order it induces is the parameter tLe. -/

/-- The grouping of lines 285-293: the distinct display categories in first
occurrence order (feed.category || Uncategorized), each with its feeds in
registry order. -/
def categorize (reg : Registry) : List (String × List Feed) :=
  let feeds := reg.map (fun kv => kv.2)
  let cats := (feeds.map (fun f => jsOrS f.category "Uncategorized")).dedup
  cats.map (fun c => (c, feeds.filter (fun f => jsOrS f.category "Uncategorized" = c)))

/-- The listing data of lines 295-304: categories sorted by the default
string sort, feeds within a category sorted by localeCompare on titles,
each feed rendered as its title and the identifier derived from its URL. -/
def getFeedsListEntries (ph : String → Option String) (tLe : Feed → Feed → Prop)
    [DecidableRel tLe] (reg : Registry) : List (String × List (String × String)) :=
  (List.insertionSort strLe ((categorize reg).map (fun p => p.1)))
    |>.map (fun c =>
      (c, (List.insertionSort tLe
            (((categorize reg).find? (fun p => p.1 = c)).map (fun p => p.2) |>.getD [])).map
          (fun f => (f.title, createFeedId ph f.url))))

/-- Embeds getFeedsList: the final rendered string. -/
def getFeedsList (ph : String → Option String) (tLe : Feed → Feed → Prop)
    [DecidableRel tLe] (reg : Registry) : String :=
  (getFeedsListEntries ph tLe reg).foldl
    (fun acc p =>
      (p.2.foldl (fun a q => a ++ "- " ++ q.1 ++ " (use: rss --" ++ q.2 ++ ")\n")
        (acc ++ p.1 ++ ":\n")) ++ "\n")
    "Available RSS Feeds:\n\n"

/-! ## Concrete instances used by the claim theorems -/

/-- A hostname capability for the C4 inputs, agreeing with the WHATWG URL
parser on them. -/
def phC4 : String → Option String
  | "https://www.example.com/feed" => some "www.example.com"
  | "https://example.com/other" => some "example.com"
  | "https://awww.example.com/" => some "awww.example.com"
  | _ => none

/-- A registry holding one feed categorized "Gaming Weekly". -/
def regC5 : Registry :=
  [("gw-com",
    { title := "GW", url := "https://gw.com/feed", htmlUrl := none,
      category := some "Gaming Weekly" })]

/-- A registry holding one feed categorized "Tech News". -/
def regC5a : Registry :=
  [("hn-com",
    { title := "HN", url := "https://hn.com/rss", htmlUrl := none,
      category := some "Tech News" })]

/-- A five-feed registry of which exactly two are categorized "Alpha". -/
def regC7 : Registry :=
  [("a1-com", { title := "A1", url := "https://a1.com/rss", htmlUrl := none, category := some "Alpha" }),
   ("a2-com", { title := "A2", url := "https://a2.com/rss", htmlUrl := none, category := some "Alpha" }),
   ("b1-com", { title := "B1", url := "https://b1.com/rss", htmlUrl := none, category := some "Beta" }),
   ("b2-com", { title := "B2", url := "https://b2.com/rss", htmlUrl := none, category := some "Beta" }),
   ("b3-com", { title := "B3", url := "https://b3.com/rss", htmlUrl := none, category := some "Beta" })]

/-- A raw item with the given title and iso date. -/
def rawItemAt (t iso : String) : RawItem :=
  { title := some t, link := some ("https://l/" ++ t), pubDate := some iso,
    content := none, contentSnippet := none, creator := none,
    categories := none, isoDate := some iso }

/-- A transport capability serving five items per feed for the C7
registry. -/
def fetchC7 (url : String) : Option ParsedFeed :=
  if url = "https://a1.com/rss" then
    some { title := some "A1", items :=
      [rawItemAt "p1" "t50", rawItemAt "p2" "t40", rawItemAt "p3" "t30",
       rawItemAt "p4" "t20", rawItemAt "p5" "t10"] }
  else if url = "https://a2.com/rss" then
    some { title := some "A2", items :=
      [rawItemAt "q1" "t45", rawItemAt "q2" "t35", rawItemAt "q3" "t25",
       rawItemAt "q4" "t15", rawItemAt "q5" "t5"] }
  else none

/-- A date interpretation for the iso strings used in the examples. -/
def timeEx : String → Int
  | "t50" => 50 | "t45" => 45 | "t40" => 40 | "t35" => 35 | "t30" => 30
  | "t25" => 25 | "t20" => 20 | "t15" => 15 | "t10" => 10 | "t5" => 5
  | _ => 0

/-- A feed for the C3 registry. -/
def feedC3 (n : String) : Feed :=
  { title := "F" ++ n, url := "https://f" ++ n ++ ".com/rss", htmlUrl := none,
    category := some "Cat" }

/-- A four-feed registry for the partial-failure example. -/
def regC3 : Registry :=
  [("f1-com", feedC3 "1"), ("f2-com", feedC3 "2"),
   ("f3-com", feedC3 "3"), ("f4-com", feedC3 "4")]

/-- A one-item parsed feed. -/
def pfC3 (n iso : String) : ParsedFeed :=
  { title := some ("F" ++ n), items := [rawItemAt ("x" ++ n) iso] }

/-- A transport for the C3 registry on which exactly the second feed's
fetch fails. -/
def fetchC3 : String → Option ParsedFeed
  | "https://f1.com/rss" => some (pfC3 "1" "t10")
  | "https://f3.com/rss" => some (pfC3 "3" "t5")
  | "https://f4.com/rss" => some (pfC3 "4" "t1")
  | _ => none

/-- The converted item the C3 transport serves for one feed. -/
def itemC3 (n iso : String) : FeedItem :=
  convertItem (feedC3 n) (pfC3 n iso) "now" (rawItemAt ("x" ++ n) iso)

/-- The candidate test as the C6 claim words it: the code's disjuncts plus
a category-contained-in-the-filter disjunct. -/
def isCandidateClaim (filter : Option String) (f : Feed) : Bool :=
  match filter with
  | none => true
  | some cat =>
      if cat = "" then true
      else
        (truthyS f.category && lowerStr (f.category.getD "") = lowerStr cat) ||
        (truthyS f.category && containsStr (lowerStr cat) (lowerStr (f.category.getD ""))) ||
        (truthyS f.category && containsStr (lowerStr (f.category.getD "")) (lowerStr cat)) ||
        (f.title ≠ "" && containsStr (lowerStr f.title) (lowerStr cat))

/-- A feed categorized "Tech" titled "Foo". -/
def feedC6 : Feed :=
  { title := "Foo", url := "https://c6.com/rss", htmlUrl := none, category := some "Tech" }

/-- A one-feed registry around feedC6. -/
def regC6 : Registry := [("c6-com", feedC6)]

/-- A transport serving one item for the C6 feed. -/
def fetchC6 : String → Option ParsedFeed
  | "https://c6.com/rss" => some { title := some "Foo", items := [rawItemAt "y1" "t10"] }
  | _ => none

/-- The pre-existing entry of the C1 registry. -/
def oldFeedC1 : Feed :=
  { title := "Old", url := "https://old.com/rss", htmlUrl := none, category := some "OldCat" }

/-- The registry in place before the C1 load. -/
def regOldC1 : Registry := [("old-com", oldFeedC1)]

/-- The single entry of the C1 replacement source. -/
def newFeedC1 : Feed :=
  { title := "New", url := "https://new.com/feed", htmlUrl := none, category := some "NewCat" }

/-- A hostname capability for the C1 URLs. -/
def phC1 : String → Option String
  | "https://new.com/feed" => some "new.com"
  | "https://old.com/rss" => some "old.com"
  | _ => none

/-- A hostname capability for the C9 leaf URL. -/
def phC9 : String → Option String
  | "https://ex.com/rss" => some "ex.com"
  | _ => none

/-- A leaf outline with no explicit title, only a text label. -/
def leafC9 : OutlineNode := .mk none (some "L") (some "https://ex.com/rss") none []

/-- A labelled folder directly enclosing the leaf. -/
def innerC9 : OutlineNode := .mk (some "Inner") none none none [leafC9]

/-- A labelled folder enclosing the inner folder. -/
def outerC9 : OutlineNode := .mk (some "Outer") none none none [innerC9]

/-- A hostname capability for the hardcoded default feed URLs. -/
def phC10 : String → Option String
  | "https://news.ycombinator.com/rss" => some "news.ycombinator.com"
  | "https://techcrunch.com/feed/" => some "techcrunch.com"
  | _ => none

/-- A concrete title order standing in for localeCompare. -/
def titleLe (a b : Feed) : Prop := strLe a.title b.title

instance : DecidableRel titleLe := fun a b =>
  show Decidable (strLe a.title b.title) from inferInstance

/-! ## The amended resolver in ordered-layer form -/

/-- A resolver layer: one matching strategy over the sorted category
list. -/
abbrev ResolverLayer := List String → String → Option String

/-- First-hit-wins evaluation of an ordered list of layers. -/
def resolveLayers (layers : List ResolverLayer) (cats : List String) (lk : String) :
    Option String :=
  match layers with
  | [] => none
  | layer :: rest =>
    match layer cats lk with
    | some c => some c
    | none => resolveLayers rest cats lk

/-- Layer 1: case-insensitive exact match. -/
def exactLayer : ResolverLayer := fun cats lk =>
  cats.find? (fun c => lowerStr c = lk)

/-- Layer 2 as amended: the keyword is a substring of the category, or the
CATEGORY's own first space-delimited token is a substring of the keyword
(the direction the code implements). -/
def partialLayerAmended : ResolverLayer := fun cats lk =>
  cats.find? (fun c => containsStr (lowerStr c) lk || containsStr lk (firstToken (lowerStr c)))

/-- Layer 3: the synonym table. -/
def synonymLayer : ResolverLayer := fun cats lk =>
  findSynonymCat cats lk keywordMap

/-- The resolver as amended, in the ordered first-hit-wins layer form. -/
def getCategoryByKeywordAmended (reg : Registry) (keyword : String) : Option String :=
  resolveLayers [exactLayer, partialLayerAmended, synonymLayer]
    (getCategories reg) (lowerStr keyword)

/-! ## Helper lemmas -/

theorem firstIdxWhere_cons (p : List Char → Bool) (c : Char) (cs : List Char) :
    firstIdxWhere p (c :: cs) =
      if p (c :: cs) then some 0 else (firstIdxWhere p cs).map (fun i => i + 1) := by
  unfold firstIdxWhere
  rw [List.length_cons, List.range_succ_eq_map, List.find?_cons]
  by_cases h : p (c :: cs)
  · simp [h]
  · simp only [List.drop_zero, h, Bool.not_eq_true] at *
    simp only [h, if_false, Bool.false_eq_true]
    rw [List.find?_map]
    rfl

theorem removeFirst_eq_spec (pat : List Char) :
    ∀ l, removeFirst pat l = removeFirstAtSpec pat l
  | [] => by
      simp [removeFirst, removeFirstAtSpec, firstIdxWhere]
  | c :: cs => by
      unfold removeFirstAtSpec
      rw [firstIdxWhere_cons]
      by_cases h : startsWithL pat (c :: cs)
      · simp [removeFirst, h]
      · have ih := removeFirst_eq_spec pat cs
        rw [removeFirstAtSpec] at ih
        simp only [removeFirst, h]
        simp only [Bool.false_eq_true, if_false, ih]
        cases hfi : firstIdxWhere (fun s => startsWithL pat s) cs with
        | none => simp [hfi]
        | some i =>
            simp [hfi, List.take_succ_cons, Nat.add_right_comm i 1 pat.length,
              List.drop_succ_cons]

/-! ## Claim C4: identifier derivation -/

/-- C4 counterexample: on the valid URL https://awww.example.com/ the code
removes the first occurrence of "www." INSIDE the hostname, yielding
"aexample-com", while the claim (strip only a leading "www." label)
requires "awww-example-com". -/
theorem c4_counterexample :
    createFeedId phC4 "https://awww.example.com/" = "aexample-com" ∧
    createFeedIdClaim phC4 "https://awww.example.com/" = "awww-example-com" ∧
    createFeedId phC4 "https://awww.example.com/" ≠
      createFeedIdClaim phC4 "https://awww.example.com/" := by
  refine ⟨rfl, rfl, ?_⟩
  decide

/-- C4 as amended: createFeedId is deterministic; for a URL the parser
accepts it returns the hostname with the FIRST occurrence of the substring
"www." removed (anywhere, not only as a leading label) and every "."
replaced by "-"; for an unparseable input it removes EVERY occurrence of
"http://" or "https://" in one left-to-right scan, replaces every
non-alphanumeric character by "-" and lowercases; the two specification
examples still derive "example-com". -/
theorem c4_theorem :
    (∀ ph url, createFeedId ph url = createFeedIdAmended ph url) ∧
    createFeedId phC4 "https://www.example.com/feed" = "example-com" ∧
    createFeedId phC4 "https://example.com/other" = "example-com" := by
  refine ⟨?_, rfl, rfl⟩
  intro ph url
  cases h : ph url with
  | none => simp [createFeedId, createFeedIdAmended, h]
  | some host => simp [createFeedId, createFeedIdAmended, h, removeFirst_eq_spec]

/-! ## Claim C8: limit extraction -/

theorem findDashNum_eq_spec : ∀ l, findDashNum l = dashNumAtSpec l
  | [] => rfl
  | c :: cs => by
      unfold dashNumAtSpec
      rw [firstIdxWhere_cons]
      by_cases h : dashNumHere (c :: cs)
      · simp [findDashNum, h]
      · have ih := findDashNum_eq_spec cs
        rw [dashNumAtSpec] at ih
        simp only [findDashNum, h, if_false, Bool.false_eq_true, ih]
        cases hfi : firstIdxWhere dashNumHere cs with
        | none => simp [hfi]
        | some i => simp [hfi, Nat.add_right_comm i 1 2, List.drop_succ_cons]

/-- C8 counterexample: the param "--abc--7" is not of the shape "--"
followed by digits, so the claim assigns it the default limit 10; the code
starts-with test and the unanchored regex accept it and extract 7. -/
theorem c8_counterexample :
    extractLimit "--abc--7" = 7 ∧ extractLimitClaim "--abc--7" = 10 ∧
    extractLimit "--abc--7" ≠ extractLimitClaim "--abc--7" := by
  refine ⟨rfl, rfl, ?_⟩
  decide

/-- C8 as amended: the item limit is the default 10 unless param starts
with "--" and contains "--" immediately followed by a digit somewhere, in
which case the digit run of the leftmost such occurrence is parsed and
clamped into [1, 50]; "--0" yields 1, "--999" yields 50 and "notanumber"
yields the default 10. -/
theorem c8_theorem :
    (∀ param, extractLimit param = extractLimitAmended param) ∧
    extractLimit "--0" = 1 ∧ extractLimit "--999" = 50 ∧
    extractLimit "notanumber" = 10 := by
  refine ⟨?_, rfl, rfl, rfl⟩
  intro param
  unfold extractLimit extractLimitAmended
  rw [findDashNum_eq_spec]

/-! ## Claim C5: category resolver layers -/

/-- C5 counterexample: with the single registered category "Gaming Weekly"
the keyword "progaming" resolves to it in the code (the partial layer tests
whether the CATEGORY's first token "gaming" is a substring of the keyword),
while the claim's layers (keyword substring of category, or the KEYWORD's
first token substring of the category, then synonyms) all miss, so the
claim predicts no match. -/
theorem c5_counterexample :
    getCategoryByKeyword regC5 "progaming" = some "Gaming Weekly" ∧
    getCategoryByKeywordClaim regC5 "progaming" = none := by
  exact ⟨by decide, by decide⟩

/-- C5 as amended: the resolver applies its layers in order with the first
hit winning — (1) case-insensitive exact match; (2) the keyword is a
substring of a registered category OR the CATEGORY's own first
space-delimited token is a substring of the keyword; (3) the synonym
table; (4) otherwise none. The specification examples hold: "tech news"
resolves to the exact label "Tech News", "technology trends" resolves to a
category containing "tech", and "xyzzy" resolves to none. -/
theorem c5_theorem :
    (∀ reg keyword, getCategoryByKeyword reg keyword = getCategoryByKeywordAmended reg keyword) ∧
    getCategoryByKeyword regC5a "tech news" = some "Tech News" ∧
    getCategoryByKeyword regC5a "technology trends" = some "Tech News" ∧
    getCategoryByKeyword regC5a "xyzzy" = none := by
  refine ⟨?_, by decide, by decide, by decide⟩
  intro reg keyword
  simp only [getCategoryByKeyword, getCategoryByKeywordAmended, resolveLayers, exactLayer,
    partialLayerAmended, synonymLayer]
  cases h1 : List.find? (fun c => lowerStr c = lowerStr keyword) (getCategories reg) with
  | some c => simp [h1]
  | none =>
      simp only [h1]
      cases h2 : List.find?
          (fun c => containsStr (lowerStr c) (lowerStr keyword) ||
            containsStr (lowerStr keyword) (firstToken (lowerStr c)))
          (getCategories reg) with
      | some c => simp [h2]
      | none =>
          simp only [h2]
          cases findSynonymCat (getCategories reg) (lowerStr keyword) keywordMap <;> rfl

/-! ## Claim C7: per-feed budget divides by total registry size -/

/-- C7: for a nonempty registry the per-feed budget is exactly the ceiling
of limit over the TOTAL registry size: it is the least B with
limit ≤ B * size. In the concrete five-feed registry with two "Alpha"
candidates and limit 10 the budget is ceil(10/5) = 2 (not ceil(10/2) = 5),
so the filtered query returns 4 items although both candidates serve five
items each. -/
theorem c7_theorem :
    (∀ L n, 0 < n →
      L ≤ itemsPerFeed L n * n ∧ ∀ B, L ≤ B * n → itemsPerFeed L n ≤ B) ∧
    itemsPerFeed 10 5 = 2 ∧
    (getAllFeedItems fetchC7 "now" timeEx regC7 (some "Alpha") 10).length = 4 := by
  refine ⟨?_, by decide, by decide⟩
  intro L n hn
  constructor
  · have e := Nat.div_add_mod (L + n - 1) n
    have hr : (L + n - 1) % n < n := Nat.mod_lt _ hn
    unfold itemsPerFeed
    rw [Nat.mul_comm]
    generalize hq : n * ((L + n - 1) / n) = t at e
    omega
  · intro B hB
    unfold itemsPerFeed
    rw [Nat.div_le_iff_le_mul_add_pred hn]
    rw [Nat.mul_comm] at hB
    omega

/-- C7 witness at limit 10 over five registered feeds. -/
theorem c7_witness :
    (0 < 5 ∧ 10 ≤ itemsPerFeed 10 5 * 5) ∧ itemsPerFeed 10 5 ≤ 2 :=
  ⟨⟨by decide, (c7_theorem.1 10 5 (by decide)).1⟩,
    (c7_theorem.1 10 5 (by decide)).2 2 (by decide)⟩

/-! ## Claim C2: fetchAll bounded and time-sorted -/

/-- C2: for every transport capability, clock, date interpretation,
registry and limit L in [1, 50], fetchAll with no category filter returns
at most L items, and the returned sequence is sorted non-increasingly by
the date of the effective timestamp — the truthy normalized isoDate when
present, the primary pubDate otherwise. -/
theorem c2_theorem :
    ∀ fetchCap now time reg L, 1 ≤ L → L ≤ 50 →
      (getAllFeedItems fetchCap now time reg none L).length ≤ L ∧
      (getAllFeedItems fetchCap now time reg none L).Sorted (laterEq time) := by
  intro fetchCap now time reg L h1 h2
  constructor
  · exact List.length_take_le L _
  · exact List.Pairwise.sublist (List.take_sublist _ _)
      (List.sorted_insertionSort (laterEq time) _)

/-- C2 witness: the five-feed registry with the two Alpha feeds fetched,
limit 3. -/
theorem c2_witness :
    (1:Nat) ≤ 3 ∧ (3:Nat) ≤ 50 ∧
    ((getAllFeedItems fetchC7 "now" timeEx regC7 none 3).length ≤ 3 ∧
     (getAllFeedItems fetchC7 "now" timeEx regC7 none 3).Sorted (laterEq timeEx)) :=
  ⟨by decide, by decide, c2_theorem fetchC7 "now" timeEx regC7 3 (by decide) (by decide)⟩

/-! ## Claim C3: partial-failure tolerance -/

theorem lookupReg_of_wf :
    ∀ (reg : Registry), RegWF reg → ∀ kv, kv ∈ reg → lookupReg reg kv.1 = some kv.2 := by
  intro reg
  induction reg with
  | nil => intro _ kv h; cases h
  | cons hd tl ih =>
      intro hwf kv hin
      have hwf2 : RegWF tl := (List.nodup_cons.mp hwf).2
      have hnot : hd.1 ∉ tl.map (fun kv => kv.1) := (List.nodup_cons.mp hwf).1
      cases hin with
      | head =>
          unfold lookupReg
          rw [List.find?_cons_of_pos]
          · rfl
          · simp
      | tail _ htl =>
          by_cases heq : hd.1 = kv.1
          · exfalso
            exact hnot (heq ▸ List.mem_map.mpr ⟨kv, htl, rfl⟩)
          · unfold lookupReg
            rw [List.find?_cons_of_neg]
            · exact ih hwf2 kv htl
            · simp [heq]

theorem getFeedItems_of_lookup (fetchCap : String → Option ParsedFeed) (now : String)
    (reg : Registry) (k : String) (f : Feed) (L : Nat) (h : lookupReg reg k = some f) :
    getFeedItems fetchCap now reg k L =
      match fetchCap f.url with
      | none => Except.error ("Error fetching feed " ++ k)
      | some pf => Except.ok ((pf.items.take L).map (convertItem f pf now)) := by
  unfold getFeedItems
  rw [h]

/-- C3 counterexample: in the four-feed registry the second feed's fetch
fails and the other three succeed with one item each; with limit 2 the
budget is ceil(2/4) = 1, the merged pool is the three successful items, and
the time-sorted truncation keeps only the two newest — the item of the
SUCCESSFUL fourth feed is not contained in the result, contradicting the
claim that the result contains the items from every feed that succeeded. -/
theorem c3_counterexample :
    fetchC3 "https://f2.com/rss" = none ∧
    (getFeedItems fetchC3 "now" regC3 "f4-com" 1).toOption = some [itemC3 "4" "t1"] ∧
    getAllFeedItems fetchC3 "now" timeEx regC3 none 2 = [itemC3 "1" "t10", itemC3 "3" "t5"] ∧
    itemC3 "4" "t1" ∉ getAllFeedItems fetchC3 "now" timeEx regC3 none 2 := by
  refine ⟨rfl, by decide, by decide, by decide⟩

/-- C3 as amended: no fetch failure aborts the batch — the merged pool
contains every budgeted item of every candidate whose fetch succeeded and
only items of successful candidates, and the result is the descending-time
sort of exactly that pool truncated to the limit (so items of successful
feeds are excluded only by that truncation); in particular an empty
candidate set or an all-failed candidate set yields the empty sequence,
not an error. -/
theorem c3_theorem :
    ∀ fetchCap now time reg filter L, RegWF reg →
    ((∀ kv ∈ candidatesOf reg filter, fetchCap (kv.2).url = none) →
        getAllFeedItems fetchCap now time reg filter L = []) ∧
    (∀ kv ∈ candidatesOf reg filter, ∀ pf, fetchCap (kv.2).url = some pf →
        ∀ x ∈ (pf.items.take (itemsPerFeed L reg.length)).map (convertItem kv.2 pf now),
          x ∈ poolOf fetchCap now reg filter L) ∧
    (∀ x ∈ poolOf fetchCap now reg filter L, ∃ kv, kv ∈ candidatesOf reg filter ∧ ∃ pf,
        fetchCap (kv.2).url = some pf ∧
        x ∈ (pf.items.take (itemsPerFeed L reg.length)).map (convertItem kv.2 pf now)) ∧
    getAllFeedItems fetchCap now time reg filter L =
      (sortItems time (poolOf fetchCap now reg filter L)).take L := by
  intro fetchCap now time reg filter L hwf
  have hmem : ∀ kv ∈ candidatesOf reg filter, kv ∈ reg := by
    intro kv hkv
    exact (List.mem_filter.mp hkv).1
  have hlk : ∀ kv ∈ candidatesOf reg filter, lookupReg reg kv.1 = some kv.2 := by
    intro kv hkv
    exact lookupReg_of_wf reg hwf kv (hmem kv hkv)
  refine ⟨?_, ?_, ?_, rfl⟩
  · intro hall
    have hpool : poolOf fetchCap now reg filter L = [] := by
      unfold poolOf
      rw [List.filterMap_eq_nil_iff.mpr, List.flatten_nil]
      intro kv hkv
      rw [getFeedItems_of_lookup fetchCap now reg kv.1 kv.2 _ (hlk kv hkv), hall kv hkv]
      rfl
    unfold getAllFeedItems
    rw [hpool]
    simp [sortItems, List.insertionSort]
  · intro kv hkv pf hpf x hx
    unfold poolOf
    refine List.mem_flatten.mpr ⟨_, ?_, hx⟩
    refine List.mem_filterMap.mpr ⟨kv, hkv, ?_⟩
    rw [getFeedItems_of_lookup fetchCap now reg kv.1 kv.2 _ (hlk kv hkv), hpf]
    rfl
  · intro x hx
    unfold poolOf at hx
    obtain ⟨l, hl, hxl⟩ := List.mem_flatten.mp hx
    obtain ⟨kv, hkv, hg⟩ := List.mem_filterMap.mp hl
    refine ⟨kv, hkv, ?_⟩
    rw [getFeedItems_of_lookup fetchCap now reg kv.1 kv.2 _ (hlk kv hkv)] at hg
    cases hpf : fetchCap kv.2.url with
    | none => rw [hpf] at hg; cases hg
    | some pf =>
        rw [hpf] at hg
        refine ⟨pf, rfl, ?_⟩
        simp only [Except.toOption] at hg
        cases hg
        exact hxl

/-- C3 witness: the partial-failure registry with limit 2. -/
theorem c3_witness :
    RegWF regC3 ∧
    getAllFeedItems fetchC3 "now" timeEx regC3 none 2 =
      (sortItems timeEx (poolOf fetchC3 "now" regC3 none 2)).take 2 :=
  ⟨by decide, (c3_theorem fetchC3 "now" timeEx regC3 none 2 (by decide)).2.2.2⟩

/-! ## Claim C6: candidate selection -/

/-- C6 counterexample: the feed categorized "Tech" satisfies the claim's
candidate test for the filter "supertech" (its category is contained in
the filter) but not the code's, and observably fetchAll returns nothing
for that filter although the feed's fetch serves an item — while for the
filter "te" (contained in the category) the item is returned. -/
theorem c6_counterexample :
    isCandidateClaim (some "supertech") feedC6 = true ∧
    isCandidate (some "supertech") feedC6 = false ∧
    getAllFeedItems fetchC6 "now" timeEx regC6 (some "supertech") 10 = [] ∧
    getAllFeedItems fetchC6 "now" timeEx regC6 (some "te") 10 =
      [convertItem feedC6 { title := some "Foo", items := [rawItemAt "y1" "t10"] } "now"
        (rawItemAt "y1" "t10")] := by
  refine ⟨by decide, by decide, by decide, by decide⟩

/-- C6 as amended: for a non-empty filter a registered feed is a candidate
iff its truthy category case-insensitively equals the filter or CONTAINS
the filter, or its nonempty title case-insensitively contains the filter —
the category-contained-in-the-filter direction is not tested; with no
filter every registered feed is a candidate. -/
theorem c6_theorem :
    (∀ reg (cat : String) kv, cat ≠ "" →
      (kv ∈ candidatesOf reg (some cat) ↔ kv ∈ reg ∧
        ((truthyS (kv.2).category = true ∧
            lowerStr ((kv.2).category.getD "") = lowerStr cat) ∨
         (truthyS (kv.2).category = true ∧
            containsStr (lowerStr ((kv.2).category.getD "")) (lowerStr cat) = true) ∨
         ((kv.2).title ≠ "" ∧ containsStr (lowerStr (kv.2).title) (lowerStr cat) = true)))) ∧
    (∀ reg kv, kv ∈ candidatesOf reg none ↔ kv ∈ reg) := by
  constructor
  · intro reg cat kv hcat
    unfold candidatesOf
    rw [List.mem_filter]
    unfold isCandidate
    simp [hcat, Bool.or_eq_true, Bool.and_eq_true, decide_eq_true_eq]
    tauto
  · intro reg kv
    unfold candidatesOf
    rw [List.mem_filter]
    simp [isCandidate]

/-- C6 witness: the "Tech" feed is a candidate for the filter "te". -/
theorem c6_witness :
    ("c6-com", feedC6) ∈ candidatesOf regC6 (some "te") :=
  (c6_theorem.1 regC6 "te" ("c6-com", feedC6) (by decide)).mpr
    ⟨by decide, Or.inr (Or.inl ⟨by decide, by decide⟩)⟩

/-! ## Claim C1: loading merges instead of replacing -/

theorem find?_key_update (k q : String) (f : Feed) (reg : Registry) :
    List.find? (fun kv => kv.1 = q) (reg.map (fun kv => if kv.1 = k then (k, f) else kv)) =
      if q = k then
        (if reg.any (fun kv => kv.1 = k) then some (k, f) else none)
      else List.find? (fun kv => kv.1 = q) reg := by
  rw [List.find?_map]
  by_cases hq : q = k
  · subst hq
    have hp : ((fun kv : String × Feed => decide (kv.1 = q)) ∘
        fun kv => if kv.1 = q then (q, f) else kv) =
        fun kv : String × Feed => decide (kv.1 = q) := by
      funext kv
      by_cases hk : kv.1 = q <;> simp [hk]
    rw [hp]
    simp only [if_pos rfl]
    cases hf : List.find? (fun kv : String × Feed => decide (kv.1 = q)) reg with
    | none =>
        have hany : reg.any (fun kv => kv.1 = q) = false := by
          rw [List.any_eq_false]
          intro kv hkv
          have := List.find?_eq_none.mp hf kv hkv
          simpa using this
        simp [hany]
    | some kv =>
        have h1 : kv.1 = q := by simpa using List.find?_some hf
        have h2 : kv ∈ reg := List.mem_of_find?_eq_some hf
        have hany : reg.any (fun kv => kv.1 = q) = true :=
          List.any_eq_true.mpr ⟨kv, h2, by simpa using h1⟩
        simp [hany, h1]
  · have hp : ((fun kv : String × Feed => decide (kv.1 = q)) ∘
        fun kv => if kv.1 = k then (k, f) else kv) =
        fun kv : String × Feed => decide (kv.1 = q) := by
      funext kv
      by_cases hk : kv.1 = k <;> simp [hk, Ne.symm hq]
    rw [hp, if_neg hq]
    cases hf : List.find? (fun kv : String × Feed => decide (kv.1 = q)) reg with
    | none => rfl
    | some kv =>
        have h1 : kv.1 = q := by simpa using List.find?_some hf
        have hkk : ¬ kv.1 = k := by
          intro h
          exact hq (by rw [← h1, h])
        simp [hkk]

theorem lookupReg_insertFeed (reg : Registry) (k : String) (f : Feed) (q : String) :
    lookupReg (insertFeed reg k f) q = if q = k then some f else lookupReg reg q := by
  unfold insertFeed lookupReg
  by_cases hmem : reg.any (fun kv => kv.1 = k)
  · rw [if_pos hmem, find?_key_update]
    by_cases hq : q = k <;> simp [hq, hmem]
  · rw [if_neg hmem, List.find?_append]
    have hnone : List.find? (fun kv => kv.1 = k) reg = none := by
      rw [List.find?_eq_none]
      intro kv hkv
      simp only [decide_eq_true_eq]
      intro hk
      exact hmem (List.any_eq_true.mpr ⟨kv, hkv, by simp [hk]⟩)
    by_cases hq : q = k
    · subst hq
      rw [hnone]
      simp [List.find?]
    · have h2 : List.find? (fun kv => kv.1 = q) [(k, f)] = none := by
        simp [List.find?, Ne.symm hq]
      rw [h2]
      cases List.find? (fun kv => kv.1 = q) reg <;> simp [hq]

theorem lookupReg_loadJSON (ph : String → Option String) :
    ∀ (fs : List Feed) (reg : Registry) (q : String),
      lookupReg
        (fs.foldl
          (fun r f =>
            insertFeed r (createFeedId ph f.url)
              { title := f.title, url := f.url, htmlUrl := f.htmlUrl, category := f.category })
          reg) q =
        match fs.reverse.find? (fun f => createFeedId ph f.url = q) with
        | some f => some f
        | none => lookupReg reg q := by
  intro fs
  induction fs with
  | nil => intro reg q; rfl
  | cons f0 rest ih =>
      intro reg q
      rw [List.foldl_cons, ih, List.reverse_cons, List.find?_append]
      cases hr : rest.reverse.find? (fun f => createFeedId ph f.url = q) with
      | some g => rfl
      | none =>
          simp only [Option.none_or]
          rw [lookupReg_insertFeed]
          by_cases hq : q = createFeedId ph f0.url
          · simp [List.find?, hq]
          · have hne : ¬ createFeedId ph f0.url = q := Ne.symm hq
            simp [List.find?, hne, hq]

theorem exists_key_insertFeed (reg : Registry) (k2 : String) (fnew : Feed) (k : String)
    (h : ∃ f, (k, f) ∈ reg) : ∃ f2, (k, f2) ∈ insertFeed reg k2 fnew := by
  obtain ⟨f, hf⟩ := h
  unfold insertFeed
  by_cases hmem : reg.any (fun kv => kv.1 = k2)
  · rw [if_pos hmem]
    by_cases hk : k = k2
    · exact ⟨fnew, List.mem_map.mpr ⟨(k, f), hf, by simp [hk]⟩⟩
    · exact ⟨f, List.mem_map.mpr ⟨(k, f), hf, by simp [hk]⟩⟩
  · rw [if_neg hmem]
    exact ⟨f, List.mem_append_left _ hf⟩

mutual

theorem exists_key_processOutline (ph : String → Option String) (o : OutlineNode)
    (cat : String) (reg : Registry) (k : String) (h : ∃ f, (k, f) ∈ reg) :
    ∃ f2, (k, f2) ∈ processOutline ph o cat reg := by
  cases o with
  | mk title text xmlUrl htmlUrl children =>
      unfold processOutline
      by_cases hx : truthyS xmlUrl
      · rw [if_pos hx]
        exact exists_key_insertFeed _ _ _ _ h
      · rw [if_neg hx]
        by_cases hc : children.isEmpty
        · simp [hc]
          exact h
        · simp only [hc, Bool.not_false, if_pos]
          exact exists_key_processOutlineList ph children _ reg k h

theorem exists_key_processOutlineList (ph : String → Option String) (os : List OutlineNode)
    (cat : String) (reg : Registry) (k : String) (h : ∃ f, (k, f) ∈ reg) :
    ∃ f2, (k, f2) ∈ processOutlineList ph os cat reg := by
  cases os with
  | nil => exact h
  | cons o rest =>
      unfold processOutlineList
      exact exists_key_processOutlineList ph rest cat _ k
        (exists_key_processOutline ph o cat reg k h)

end

/-- C1 counterexample: with the one-entry registry holding "old-com", a
successful set-source load of a JSON source holding one unrelated entry
yields the TWO-entry registry that retains the old feed — the registry is
merged into, not replaced by exactly the entries of the new source. -/
theorem c1_counterexample :
    (setFeedsPath phC1 true "feeds.json" (SourceFile.json (some [newFeedC1])) regOldC1).toOption =
      some [("old-com", oldFeedC1), ("new-com", newFeedC1)] ∧
    lookupReg
      (applyLoad regOldC1
        (setFeedsPath phC1 true "feeds.json" (SourceFile.json (some [newFeedC1])) regOldC1))
      "old-com" = some oldFeedC1 ∧
    createFeedId phC1 newFeedC1.url ≠ "old-com" := by
  refine ⟨by decide, by decide, by decide⟩

/-- C1 as amended: loading a registry source (including via set-source)
INSERTS the parsed source's entries into the existing registry in order,
last write winning per derived identifier, so previous entries whose
identifiers do not collide are retained (a merge, not a replacement);
insertion only happens from a fully parsed source, and when the path does
not exist, the file cannot be read, the extension is unsupported, or the
source cannot be parsed, the load fails and the previous registry is left
fully intact. -/
theorem c1_theorem :
    (∀ ph p src reg, applyLoad reg (setFeedsPath ph false p src reg) = reg) ∧
    (∀ ph p reg, applyLoad reg (setFeedsPath ph true p SourceFile.unreadable reg) = reg) ∧
    (∀ ph p ext reg, applyLoad reg (setFeedsPath ph true p (SourceFile.other ext) reg) = reg) ∧
    (∀ ph p reg, applyLoad reg (setFeedsPath ph true p (SourceFile.json none) reg) = reg) ∧
    (∀ ph p reg, applyLoad reg (setFeedsPath ph true p (SourceFile.opml none) reg) = reg) ∧
    (∀ ph p fs reg reg2,
      setFeedsPath ph true p (SourceFile.json (some fs)) reg = Except.ok reg2 →
      ∀ q, lookupReg reg2 q =
        match fs.reverse.find? (fun f => createFeedId ph f.url = q) with
        | some f => some f
        | none => lookupReg reg q) ∧
    (∀ ph outlines reg reg2 k,
      parseOPMLFeeds ph (some outlines) reg = Except.ok reg2 →
      (∃ f, (k, f) ∈ reg) → ∃ f2, (k, f2) ∈ reg2) := by
  refine ⟨fun _ _ _ _ => rfl, fun _ _ _ => rfl, fun _ _ _ _ => rfl, fun _ _ _ => rfl,
    fun _ _ _ => rfl, ?_, ?_⟩
  · intro ph p fs reg reg2 hok q
    have : reg2 = fs.foldl
        (fun r f =>
          insertFeed r (createFeedId ph f.url)
            { title := f.title, url := f.url, htmlUrl := f.htmlUrl, category := f.category })
        reg := by
      simpa [setFeedsPath, loadFeedsFromFile, parseJSONFeeds] using hok.symm
    rw [this, lookupReg_loadJSON]
  · intro ph outlines reg reg2 k hok h
    have : reg2 = processOutlineList ph outlines "" reg := by
      simpa [parseOPMLFeeds] using hok.symm
    rw [this]
    exact exists_key_processOutlineList ph outlines "" reg k h

/-- C1 witness: the merge equation applied to the concrete load of the
counterexample. -/
theorem c1_witness :
    lookupReg [("old-com", oldFeedC1), ("new-com", newFeedC1)] "new-com" = some newFeedC1 ∧
    lookupReg [("old-com", oldFeedC1), ("new-com", newFeedC1)] "old-com" = some oldFeedC1 := by
  have h := c1_theorem.2.2.2.2.2.1 phC1 "feeds.json" [newFeedC1] regOldC1
    [("old-com", oldFeedC1), ("new-com", newFeedC1)] (by rfl)
  constructor
  · rw [h "new-com"]
    decide
  · rw [h "old-com"]
    decide

/-! ## Claim C9: hierarchical loader category propagation -/

theorem jsOrS_of_truthy (a b : Option String) (c d : String)
    (h : truthyS (jsOrO a b) = true) : jsOrS a (jsOrS b c) = jsOrS a (jsOrS b d) := by
  cases a with
  | none =>
      cases b with
      | none => simp [jsOrO, truthyS] at h
      | some sb =>
          by_cases hb : sb = ""
          · simp [jsOrO, truthyS, hb] at h
          · simp [jsOrS, hb]
  | some sa =>
      by_cases ha : sa = ""
      · cases b with
        | none => simp [jsOrO, truthyS, ha] at h
        | some sb =>
            by_cases hb : sb = ""
            · simp [jsOrO, truthyS, ha, hb] at h
            · simp [jsOrS, ha, hb]
      · simp [jsOrS, ha]

/-- C9: in the hierarchical loader (a) a folder outline carrying a truthy
title or text label processes its subtree identically under any two
inherited categories — the inner label overrides the outer one; (b) a leaf
is stored with exactly the inherited category, its title falling back from
the title attribute to the text label; (c) with both title and text falsy
the stored title is the placeholder "Unnamed Feed"; and (d) the concrete
folder "Outer" containing folder "Inner" containing a leaf stores the leaf
with category "Inner" (and with the text-label title "L"). -/
theorem c9_theorem :
    (∀ ph o c₁ c₂ reg, truthyS (OutlineNode.xmlUrl o) = false →
        (OutlineNode.children o).isEmpty = false →
        truthyS (jsOrO (OutlineNode.title o) (OutlineNode.text o)) = true →
        processOutline ph o c₁ reg = processOutline ph o c₂ reg) ∧
    (∀ ph o c reg, truthyS (OutlineNode.xmlUrl o) = true →
        processOutline ph o c reg =
          insertFeed reg (createFeedId ph ((OutlineNode.xmlUrl o).getD ""))
            { title := jsOrS (OutlineNode.title o) (jsOrS (OutlineNode.text o) "Unnamed Feed"),
              url := (OutlineNode.xmlUrl o).getD "",
              htmlUrl := OutlineNode.htmlUrl o,
              category := some c }) ∧
    (∀ t tx, truthyS t = false → truthyS tx = false →
        jsOrS t (jsOrS tx "Unnamed Feed") = "Unnamed Feed") ∧
    lookupReg (processOutlineList phC9 [outerC9] "" []) "ex-com" =
      some { title := "L", url := "https://ex.com/rss", htmlUrl := none,
             category := some "Inner" } := by
  refine ⟨?_, ?_, ?_, by decide⟩
  · intro ph o c₁ c₂ reg hx hc hl
    cases o with
    | mk title text xmlUrl htmlUrl children =>
        simp only [OutlineNode.xmlUrl] at hx
        simp only [OutlineNode.children] at hc
        simp only [OutlineNode.title, OutlineNode.text] at hl
        unfold processOutline
        simp only [hx, Bool.false_eq_true, if_false, hc, Bool.not_false, if_true]
        rw [jsOrS_of_truthy title text c₁ c₂ hl]
  · intro ph o c reg hx
    cases o with
    | mk title text xmlUrl htmlUrl children =>
        simp only [OutlineNode.xmlUrl] at hx
        unfold processOutline
        rw [if_pos hx]
        rfl
  · intro t tx ht htx
    have hts : ∀ s : String, truthyS (some s) = false → s = "" := by
      intro s hfalse
      by_contra hne
      simp [truthyS, hne] at hfalse
    cases t with
    | none =>
        cases tx with
        | none => rfl
        | some s => simp [jsOrS, hts s htx]
    | some s =>
        cases tx with
        | none => simp [jsOrS, hts s ht]
        | some s2 => simp [jsOrS, hts s ht, hts s2 htx]

/-- C9 witness: the labelled inner folder processes its subtree the same
under the inherited categories "A" and "B", and a concrete leaf stores the
inherited category. -/
theorem c9_witness :
    processOutline phC9 innerC9 "A" [] = processOutline phC9 innerC9 "B" [] ∧
    processOutline phC9 leafC9 "Inner" [] =
      insertFeed [] (createFeedId phC9 "https://ex.com/rss")
        { title := jsOrS none (jsOrS (some "L") "Unnamed Feed"),
          url := "https://ex.com/rss", htmlUrl := none, category := some "Inner" } :=
  ⟨c9_theorem.1 phC9 innerC9 "A" "B" [] (by decide) (by decide) (by decide),
   c9_theorem.2.1 phC9 leafC9 "Inner" [] (by decide)⟩

/-! ## Claim C10: listed identifiers versus storage keys -/

theorem keysDerived_insertFeed (ph : String → Option String) (reg : Registry) (f : Feed)
    (h : KeysDerived ph reg) : KeysDerived ph (insertFeed reg (createFeedId ph f.url) f) := by
  intro kv hkv
  unfold insertFeed at hkv
  by_cases hmem : reg.any (fun kv => kv.1 = createFeedId ph f.url)
  · rw [if_pos hmem] at hkv
    obtain ⟨kv0, hkv0, hupd⟩ := List.mem_map.mp hkv
    by_cases hk : kv0.1 = createFeedId ph f.url
    · rw [if_pos hk] at hupd
      rw [← hupd]
    · rw [if_neg hk] at hupd
      rw [← hupd]
      exact h kv0 hkv0
  · rw [if_neg hmem] at hkv
    rcases List.mem_append.mp hkv with h1 | h1
    · exact h kv h1
    · have h2 := List.mem_singleton.mp h1
      subst h2
      rfl

theorem keysDerived_loadJSON (ph : String → Option String) :
    ∀ (fs : List Feed) (reg : Registry), KeysDerived ph reg →
      KeysDerived ph
        (fs.foldl
          (fun r f =>
            insertFeed r (createFeedId ph f.url)
              { title := f.title, url := f.url, htmlUrl := f.htmlUrl, category := f.category })
          reg)
  | [], _, h => h
  | f0 :: rest, reg, h =>
      keysDerived_loadJSON ph rest _
        (keysDerived_insertFeed ph reg
          { title := f0.title, url := f0.url, htmlUrl := f0.htmlUrl, category := f0.category } h)

mutual

theorem keysDerived_processOutline (ph : String → Option String) (o : OutlineNode)
    (cat : String) (reg : Registry) (h : KeysDerived ph reg) :
    KeysDerived ph (processOutline ph o cat reg) := by
  cases o with
  | mk title text xmlUrl htmlUrl children =>
      unfold processOutline
      by_cases hx : truthyS xmlUrl
      · rw [if_pos hx]
        exact keysDerived_insertFeed ph reg
          { title := jsOrS title (jsOrS text "Unnamed Feed"), url := xmlUrl.getD "",
            htmlUrl := htmlUrl, category := some cat } h
      · rw [if_neg hx]
        by_cases hc : children.isEmpty
        · simp [hc]
          exact h
        · simp only [hc, Bool.not_false, if_true]
          exact keysDerived_processOutlineList ph children _ reg h

theorem keysDerived_processOutlineList (ph : String → Option String) (os : List OutlineNode)
    (cat : String) (reg : Registry) (h : KeysDerived ph reg) :
    KeysDerived ph (processOutlineList ph os cat reg) := by
  cases os with
  | nil => exact h
  | cons o rest =>
      unfold processOutlineList
      exact keysDerived_processOutlineList ph rest cat _
        (keysDerived_processOutline ph o cat reg h)

end

/-- C10 counterexample: in the hardcoded fallback registry the Hacker News
feed is stored under the key "hackernews", yet the listing derives and
prints the identifier "news-ycombinator-com" for it, which is not a key of
the registry at all — the printed identifier is not the identifier the
user can pass to fetch that single feed. -/
theorem c10_counterexample :
    lookupReg defaultFeeds "hackernews" =
      some { title := "Hacker News", url := "https://news.ycombinator.com/rss",
             htmlUrl := some "https://news.ycombinator.com/", category := some "Tech News" } ∧
    getFeedsListEntries phC10 titleLe defaultFeeds =
      [("Tech News",
        [("Hacker News", "news-ycombinator-com"), ("TechCrunch", "techcrunch-com")])] ∧
    lookupReg defaultFeeds "news-ycombinator-com" = none ∧
    ("news-ycombinator-com" : String) ≠ "hackernews" := by
  refine ⟨by decide, by decide, by decide, by decide⟩

/-- C10 as amended: the identifier printed on each listing line is
deriveId applied to that feed's URL; in every registry whose keys are the
derived identifiers of their feeds' URLs — which holds of the empty
registry and is preserved by both file-format loaders, so of every state
built purely by file loads — the printed identifier equals the storage
key; the hardcoded two-entry fallback violates the invariant, its keys
"hackernews" and "techcrunch" differing from the printed derived
identifiers. -/
theorem c10_theorem :
    (∀ ph, KeysDerived ph []) ∧
    (∀ ph fs reg reg2, KeysDerived ph reg →
        parseJSONFeeds ph (some fs) reg = Except.ok reg2 → KeysDerived ph reg2) ∧
    (∀ ph outlines reg reg2, KeysDerived ph reg →
        parseOPMLFeeds ph (some outlines) reg = Except.ok reg2 → KeysDerived ph reg2) ∧
    (∀ ph (tLe : Feed → Feed → Prop) (inst : DecidableRel tLe) (reg : Registry) c pr tp,
        (c, pr) ∈ @getFeedsListEntries ph tLe inst reg → tp ∈ pr →
        ∃ kv, kv ∈ reg ∧ (kv.2).title = tp.1 ∧ tp.2 = createFeedId ph (kv.2).url ∧
          (KeysDerived ph reg → kv.1 = tp.2)) := by
  refine ⟨?_, ?_, ?_, ?_⟩
  · intro ph kv h
    cases h
  · intro ph fs reg reg2 h hok
    have : reg2 = fs.foldl
        (fun r f =>
          insertFeed r (createFeedId ph f.url)
            { title := f.title, url := f.url, htmlUrl := f.htmlUrl, category := f.category })
        reg := by
      simpa [parseJSONFeeds] using hok.symm
    rw [this]
    exact keysDerived_loadJSON ph fs reg h
  · intro ph outlines reg reg2 h hok
    have : reg2 = processOutlineList ph outlines "" reg := by
      simpa [parseOPMLFeeds] using hok.symm
    rw [this]
    exact keysDerived_processOutlineList ph outlines "" reg h
  · intro ph tLe inst reg c pr tp hcp htp
    unfold getFeedsListEntries at hcp
    obtain ⟨c0, hc0, heq⟩ := List.mem_map.mp hcp
    have hpr : pr = (List.insertionSort tLe
        ((((categorize reg).find? (fun p => p.1 = c0)).map (fun p => p.2)).getD [])).map
        (fun f => (f.title, createFeedId ph f.url)) := by
      have := congrArg Prod.snd heq
      simpa using this.symm
    rw [hpr] at htp
    obtain ⟨f, hf, hftp⟩ := List.mem_map.mp htp
    rw [List.mem_insertionSort] at hf
    cases hfind : (categorize reg).find? (fun p => p.1 = c0) with
    | none =>
        rw [hfind] at hf
        cases hf
    | some p =>
        rw [hfind] at hf
        have hp : p ∈ categorize reg := List.mem_of_find?_eq_some hfind
        unfold categorize at hp
        obtain ⟨c1, _, hpeq⟩ := List.mem_map.mp hp
        have hp2 : p.2 = (reg.map (fun kv => kv.2)).filter
            (fun f => jsOrS f.category "Uncategorized" = c1) := by
          rw [← hpeq]
        have hf2 : f ∈ p.2 := by simpa using hf
        rw [hp2] at hf2
        have hfeeds : f ∈ reg.map (fun kv => kv.2) := List.mem_of_mem_filter hf2
        obtain ⟨kv, hkv, hkvf⟩ := List.mem_map.mp hfeeds
        refine ⟨kv, hkv, ?_, ?_, ?_⟩
        · rw [hkvf, ← hftp]
        · rw [hkvf, ← hftp]
        · intro hkd
          rw [hkd kv hkv, hkvf, ← hftp]

/-- C10 witness: the fourth conjunct applied to the Hacker News line of
the fallback registry's listing. -/
theorem c10_witness :
    ∃ kv, kv ∈ defaultFeeds ∧ (kv.2).title = "Hacker News" ∧
      ("news-ycombinator-com" : String) = createFeedId phC10 (kv.2).url ∧
      (KeysDerived phC10 defaultFeeds → kv.1 = "news-ycombinator-com") :=
  c10_theorem.2.2.2 phC10 titleLe inferInstance defaultFeeds "Tech News"
    [("Hacker News", "news-ycombinator-com"), ("TechCrunch", "techcrunch-com")]
    ("Hacker News", "news-ycombinator-com") (by decide) (by decide)

end RSSAgg
